import Mathlib

/-!
Shallow embedding of `rule.py`, a propositional-logic inference-rule engine.

The engine operates on parse trees represented as nested Python lists:
an atom premise parses to a one-element list `['a']`, a negation to
`['~', child]`, and a binary formula to `[op, left, right]`; inside a
compound tree an atomic subformula appears as a bare string.  The external
Formula Service (`logicparser.get_trees` / `logicparser.recover_formula`)
is not part of the source under verification and is modelled from the
specification.  Python strings are modelled as `List Char`, Python
exceptions as `Except Err`, and every rule entry point as a total function.
-/

set_option autoImplicit false

namespace RuleEngine

/-- Python strings, modelled as lists of characters. -/
abbrev Str := List Char

/-- The Python values the engine manipulates: strings, and lists of one,
two, or three elements.  The parser only ever produces these shapes
(`['a']`, `['~', t]`, `[op, l, r]`), and all trees the engine synthesizes
also have them.  Equality is Python `==` on these values. -/
inductive Py where
  | str (s : Str)
  | l1 (a : Py)
  | l2 (a b : Py)
  | l3 (a b c : Py)
deriving DecidableEq

/-- Modelled from the spec (section 3): a formula tree with atoms, one
unary operator NOT and four binary operators AND, OR, IMPLIES, IFF. -/
inductive Fm where
  | atom (s : Str)
  | not (p : Fm)
  | and (p q : Fm)
  | or (p q : Fm)
  | implies (p q : Fm)
  | iff (p q : Fm)
deriving DecidableEq

/-- The operator token of a NOT node. -/
def opNot : Str := ['~']

/-- The operator token of an AND node. -/
def opAnd : Str := ['&']

/-- The operator token of an OR node. -/
def opOr : Str := ['|']

/-- The operator token of an IMPLIES node. -/
def opImp : Str := ['-', '>']

/-- The operator token of an IFF node. -/
def opIff : Str := ['<', '-', '>']

/-- The `side` argument value `'right'`. -/
def sRight : Str := ['r', 'i', 'g', 'h', 't']

/-- The `side` argument value `'left'`. -/
def sLeft : Str := ['l', 'e', 'f', 't']

/-- Modelled from the spec: how a formula appears as a subtree of a larger
parse tree — an atom is a bare string, compound nodes are lists headed by
their operator token. -/
def Fm.sub : Fm → Py
  | .atom s => .str s
  | .not p => .l2 (.str opNot) p.sub
  | .and p q => .l3 (.str opAnd) p.sub q.sub
  | .or p q => .l3 (.str opOr) p.sub q.sub
  | .implies p q => .l3 (.str opImp) p.sub q.sub
  | .iff p q => .l3 (.str opIff) p.sub q.sub

/-- Whether a formula is an atom. -/
def Fm.isAtom : Fm → Bool
  | .atom _ => true
  | _ => false

/-- Modelled from the spec: the full parse tree of a formula as returned by
`logicparser.get_trees` — the same as `Fm.sub`, except that a lone atom is
wrapped in a one-element list `['a']`. -/
def Fm.full (f : Fm) : Py :=
  match f with
  | .atom s => .l1 (.str s)
  | _ => f.sub

/-- Modelled from the spec: atoms are opaque identifiers (propositional
variable names) — nonempty and made of alphanumeric or underscore
characters, so that an atom name can never collide with rendered operator
or parenthesis characters. -/
def validAtom (s : Str) : Bool :=
  !s.isEmpty && s.all fun c => c.isAlphanum || c == '_'

/-- A formula all of whose atoms are valid identifiers; this is the image
of the external parser. -/
def Fm.validB : Fm → Bool
  | .atom s => validAtom s
  | .not p => p.validB
  | .and p q => p.validB && q.validB
  | .or p q => p.validB && q.validB
  | .implies p q => p.validB && q.validB
  | .iff p q => p.validB && q.validB

/-- Modelled from the spec: the recursive part of the canonical printer —
a bare string prints as itself, a one-element list as its element, a unary
node as operator followed by child, and a binary node parenthesized as
`(left op right)`.  Reconstructed from the canonical outputs shown in the
source's doctests, e.g. `'~(d|c)'`, `'(a&c)->(b|d)'`, `'p&~q'`. -/
def renderInternal : Py → Str
  | .str s => s
  | .l1 a => renderInternal a
  | .l2 a b => renderInternal a ++ renderInternal b
  | .l3 a b c => ['('] ++ renderInternal b ++ renderInternal a ++ renderInternal c ++ [')']

/-- Modelled from the spec: `logicparser.recover_formula`, the canonical
minimal-parenthesization printer — like `renderInternal` but with the
outermost parentheses of a binary tree stripped. -/
def recover_formula (t : Py) : Str :=
  match t with
  | .l3 a b c => renderInternal b ++ renderInternal a ++ renderInternal c
  | _ => renderInternal t

/-- The canonical text of a formula: the printer applied to its full parse
tree. -/
def render (f : Fm) : Str := recover_formula f.full

/-- The three error kinds of section 7: `SyntaxError` from the parser,
the generic rule-inapplicable `Exception`, and `ValueError` for a bad
non-formula argument. -/
inductive Err where
  | syntaxErr
  | ruleErr
  | valueErr
deriving DecidableEq

/-- An input to a rule entry point: either text/object that parses to a
formula, or malformed text on which the parser raises a syntax error. -/
inductive Input where
  | wf (f : Fm)
  | malformed
deriving DecidableEq

/-- Modelled from the spec: `logicparser.get_trees` on one input. -/
def get_trees1 : Input → Except Err Py
  | .wf f => .ok f.full
  | .malformed => .error .syntaxErr

/-- Modelled from the spec: `logicparser.get_trees` on two inputs; a
syntax error is raised if either input is malformed. -/
def get_trees2 : Input → Input → Except Err (Py × Py)
  | .wf f, .wf g => .ok (f.full, g.full)
  | _, _ => .error .syntaxErr

/-- Modelled from the spec: `logicparser.get_trees` on three inputs. -/
def get_trees3 : Input → Input → Input → Except Err (Py × Py × Py)
  | .wf f, .wf g, .wf h => .ok (f.full, g.full, h.full)
  | _, _, _ => .error .syntaxErr

/-- The conclusion-extraction idiom used throughout `rule.py`: a subtree
that is a bare string (a primitive) is returned as is, any other subtree
is passed through `recover_formula`. -/
def str_or_formula : Py → Str
  | .str s => s
  | t => recover_formula t

/-- `rule.py` lines 91-107: the part of `modus_ponens` after role
assignment.  `conditional_tree[0]` must be `'->'`; then either the
antecedent slot is a bare string equal to the other premise's rendered
text, or it equals the other premise's full tree; the conclusion is the
consequent slot. -/
def mp_from_roles (conditional_tree antecedent_tree : Py) (antecedent : Str) :
    Except Err Str :=
  match conditional_tree with
  | .l3 op l r =>
      if op = .str opImp then
        if l = .str antecedent ∨ l = antecedent_tree then
          .ok (str_or_formula r)
        else .error .ruleErr
      else .error .ruleErr
  | _ => .error .ruleErr

/-- `rule.py` lines 65-107, `modus_ponens`: parse both premises, render
both, take the premise with the strictly longer rendered text as the
conditional (ties go to the second), and run `mp_from_roles`. -/
def modus_ponens (premise1 premise2 : Input) : Except Err Str :=
  match get_trees2 premise1 premise2 with
  | .error e => .error e
  | .ok (t0, t1) =>
      let formula0 := recover_formula t0
      let formula1 := recover_formula t1
      if formula0.length > formula1.length then
        mp_from_roles t0 t1 formula1
      else
        mp_from_roles t1 t0 formula0

/-- `rule.py` lines 164-179, `is_modus_ponens`: parse the candidate
conclusion, try `modus_ponens`; a syntax error propagates, any other
exception leaves the actual conclusion as the empty string; return
whether the actual conclusion equals the candidate's canonical text. -/
def is_modus_ponens (premise1 premise2 conclusion : Input) : Except Err Bool :=
  match get_trees1 conclusion with
  | .error e => .error e
  | .ok conclusion_tree =>
      match modus_ponens premise1 premise2 with
      | .error .syntaxErr => .error .syntaxErr
      | .error _ => .ok (decide (([] : Str) = recover_formula conclusion_tree))
      | .ok actual => .ok (decide (actual = recover_formula conclusion_tree))

/-- `rule.py` lines 249-260: the part of `modus_tollens` after role
assignment.  The conditional slot must be an `'->'` node and the other
tree a `'~'` node; the rule applies when the negation's child equals the
consequent, and the conclusion is `recover_formula(['~', antecedent])`. -/
def mt_from_roles (conditional_tree negated_consequent_tree : Py) :
    Except Err Str :=
  match conditional_tree with
  | .l3 op l r =>
      if op = .str opImp then
        match negated_consequent_tree with
        | .l2 nop c =>
            if nop = .str opNot then
              if c = r then .ok (recover_formula (.l2 (.str opNot) l))
              else .error .ruleErr
            else .error .ruleErr
        | _ => .error .ruleErr
      else .error .ruleErr
  | _ => .error .ruleErr

/-- `rule.py` lines 181-260, `modus_tollens`: same length-heuristic role
assignment as `modus_ponens`, then `mt_from_roles`. -/
def modus_tollens (premise1 premise2 : Input) : Except Err Str :=
  match get_trees2 premise1 premise2 with
  | .error e => .error e
  | .ok (t0, t1) =>
      let formula0 := recover_formula t0
      let formula1 := recover_formula t1
      if formula0.length > formula1.length then
        mt_from_roles t0 t1
      else
        mt_from_roles t1 t0

/-- `rule.py` lines 262-332, `is_modus_tollens`. -/
def is_modus_tollens (premise1 premise2 conclusion : Input) : Except Err Bool :=
  match get_trees1 conclusion with
  | .error e => .error e
  | .ok conclusion_tree =>
      match modus_tollens premise1 premise2 with
      | .error .syntaxErr => .error .syntaxErr
      | .error _ => .ok (decide (([] : Str) = recover_formula conclusion_tree))
      | .ok actual => .ok (decide (actual = recover_formula conclusion_tree))

/-- `rule.py` lines 379-403, `chain_implication`: both premises must be
`'->'` nodes; if `p1.right == p2.left` conclude `p1.left -> p2.right`,
else if `p2.right == p1.left` conclude `p2.left -> p1.right`. -/
def chain_implication (premise1 premise2 : Input) : Except Err Str :=
  match get_trees2 premise1 premise2 with
  | .error e => .error e
  | .ok (premise1_tree, premise2_tree) =>
      match premise1_tree, premise2_tree with
      | .l3 op1 a b, .l3 op2 c d =>
          if op1 = .str opImp ∧ op2 = .str opImp then
            if b = c then
              .ok (recover_formula (.l3 (.str opImp) a d))
            else if d = a then
              .ok (recover_formula (.l3 (.str opImp) c b))
            else .error .ruleErr
          else .error .ruleErr
      | _, _ => .error .ruleErr

/-- `rule.py` lines 405-475, `is_chain_implication`. -/
def is_chain_implication (premise1 premise2 conclusion : Input) : Except Err Bool :=
  match get_trees1 conclusion with
  | .error e => .error e
  | .ok conclusion_tree =>
      match chain_implication premise1 premise2 with
      | .error .syntaxErr => .error .syntaxErr
      | .error _ => .ok (decide (([] : Str) = recover_formula conclusion_tree))
      | .ok actual => .ok (decide (actual = recover_formula conclusion_tree))

/-- `rule.py` lines 541-547, the inner loop of `dilemma`: scan every
premise tree; a `'->'` node whose antecedent equals the current
disjunction's left child is stored as `conditional_tree1`, else if it
equals the right child it is stored as `conditional_tree2`.  `none` plays
the role of the initial empty list (which is falsy in Python); every tree
ever stored is a nonempty list, hence truthy. -/
def dilemma_scan (dl dr : Py) : List Py → Option Py × Option Py → Option Py × Option Py
  | [], acc => acc
  | t :: rest, (c1, c2) =>
      match t with
      | .l3 op l _ =>
          if op = .str opImp then
            if l = dl then dilemma_scan dl dr rest (some t, c2)
            else if l = dr then dilemma_scan dl dr rest (c1, some t)
            else dilemma_scan dl dr rest (c1, c2)
          else dilemma_scan dl dr rest (c1, c2)
      | _ => dilemma_scan dl dr rest (c1, c2)

/-- `rule.py` lines 537-547, the outer loop of `dilemma`: for each premise
whose tree is an `'|'` node, record it as the disjunction and run the
inner scan over all three premise trees, accumulating into the same
`conditional_tree1` / `conditional_tree2` variables. -/
def dilemma_outer (all_trees : List Py) :
    List Py → Option Py × Option Py × Option Py → Option Py × Option Py × Option Py
  | [], st => st
  | t :: rest, (disj, c1, c2) =>
      match t with
      | .l3 op dl dr =>
          if op = .str opOr then
            match dilemma_scan dl dr all_trees (c1, c2) with
            | (c1a, c2a) => dilemma_outer all_trees rest (some t, c1a, c2a)
          else dilemma_outer all_trees rest (disj, c1, c2)
      | _ => dilemma_outer all_trees rest (disj, c1, c2)

/-- The third element of a three-element list (Python `tree[2]`); the
engine only ever applies it to `'->'` nodes. -/
def py2 : Py → Py
  | .l3 _ _ c => c
  | t => t

/-- `rule.py` lines 477-554, `dilemma`: parse the three premises, run the
scan, and if the disjunction and both conditionals were assigned return
`recover_formula(['|', conditional_tree1[2], conditional_tree2[2]])`,
else raise the rule-inapplicable exception. -/
def dilemma (premise1 premise2 premise3 : Input) : Except Err Str :=
  match get_trees3 premise1 premise2 premise3 with
  | .error e => .error e
  | .ok (t1, t2, t3) =>
      let trees := [t1, t2, t3]
      match dilemma_outer trees trees (none, none, none) with
      | (some _, some c1, some c2) =>
          .ok (recover_formula (.l3 (.str opOr) (py2 c1) (py2 c2)))
      | _ => .error .ruleErr

/-- `rule.py` lines 556-631, `is_dilemma`. -/
def is_dilemma (premise1 premise2 premise3 conclusion : Input) : Except Err Bool :=
  match get_trees1 conclusion with
  | .error e => .error e
  | .ok conclusion_tree =>
      match dilemma premise1 premise2 premise3 with
      | .error .syntaxErr => .error .syntaxErr
      | .error _ => .ok (decide (([] : Str) = recover_formula conclusion_tree))
      | .ok actual => .ok (decide (actual = recover_formula conclusion_tree))

/-- `rule.py` lines 701-722: the part of `disjunction_elim` after role
assignment.  The disjunction slot must be an `'|'` node; if the other
tree equals `['~', left disjunct]` the conclusion is the right disjunct,
else if it equals `['~', right disjunct]` the conclusion is the left
disjunct (bare strings returned as is, otherwise `recover_formula`). -/
def de_from_roles (disjunction_tree negated_disjunct_tree : Py) :
    Except Err Str :=
  match disjunction_tree with
  | .l3 op dl dr =>
      if op = .str opOr then
        if negated_disjunct_tree = .l2 (.str opNot) dl then
          .ok (str_or_formula dr)
        else if negated_disjunct_tree = .l2 (.str opNot) dr then
          .ok (str_or_formula dl)
        else .error .ruleErr
      else .error .ruleErr
  | _ => .error .ruleErr

/-- `rule.py` lines 633-722, `disjunction_elim`: same length-heuristic
role assignment, then `de_from_roles`. -/
def disjunction_elim (premise1 premise2 : Input) : Except Err Str :=
  match get_trees2 premise1 premise2 with
  | .error e => .error e
  | .ok (t0, t1) =>
      let formula0 := recover_formula t0
      let formula1 := recover_formula t1
      if formula0.length > formula1.length then
        de_from_roles t0 t1
      else
        de_from_roles t1 t0

/-- `rule.py` lines 724-794, `is_disjunction_elim`. -/
def is_disjunction_elim (premise1 premise2 conclusion : Input) : Except Err Bool :=
  match get_trees1 conclusion with
  | .error e => .error e
  | .ok conclusion_tree =>
      match disjunction_elim premise1 premise2 with
      | .error .syntaxErr => .error .syntaxErr
      | .error _ => .ok (decide (([] : Str) = recover_formula conclusion_tree))
      | .ok actual => .ok (decide (actual = recover_formula conclusion_tree))

/-- The length of a Python value under `len()`: list length, or string
length for strings (the engine only takes `len` of lists). -/
def pyLen : Py → Nat
  | .str s => s.length
  | .l1 _ => 1
  | .l2 _ _ => 2
  | .l3 _ _ _ => 3

/-- `rule.py` lines 796-875, `disjunction_intro`: parse both inputs
(before the `side` check!), raise `ValueError` unless `side` is exactly
`'right'` or `'left'`, wrap each operand in parentheses unless its tree
has fewer than three elements (an atom or a negation), and concatenate
with `'|'` in the order given by `side`. -/
def disjunction_intro (premise1 statement : Input) (side : Str) : Except Err Str :=
  match get_trees2 premise1 statement with
  | .error e => .error e
  | .ok (premise1_tree, statement_tree) =>
      if ¬(side = sRight ∨ side = sLeft) then .error .valueErr
      else
        let p :=
          if pyLen premise1_tree < 3 then recover_formula premise1_tree
          else ['('] ++ recover_formula premise1_tree ++ [')']
        let s :=
          if pyLen statement_tree < 3 then recover_formula statement_tree
          else ['('] ++ recover_formula statement_tree ++ [')']
        if side = sLeft then .ok (s ++ [ '|' ] ++ p)
        else .ok (p ++ [ '|' ] ++ s)

/-- `rule.py` lines 877-950, `is_disjunction_intro`: parse premise and
conclusion; unwrap a one-element premise tree to its bare string; the
conclusion must be an `'|'` node equal to `['|', premise1_tree,
conclusion_tree[2]]` or `['|', conclusion_tree[1], premise1_tree]`. -/
def is_disjunction_intro (premise1 conclusion : Input) : Except Err Bool :=
  match get_trees2 premise1 conclusion with
  | .error e => .error e
  | .ok (premise1_tree0, conclusion_tree) =>
      let premise1_tree :=
        match premise1_tree0 with
        | .l1 a => a
        | t => t
      match conclusion_tree with
      | .l3 op cl cr =>
          if op = .str opOr then
            .ok (decide (Py.l3 op cl cr = Py.l3 (.str opOr) premise1_tree cr ∨
                         Py.l3 op cl cr = Py.l3 (.str opOr) cl premise1_tree))
          else .ok false
      | _ => .ok false

/-- `rule.py` lines 952-1026, `conjunction_elim`: parse the premise
(before the `side` check!), raise `ValueError` unless `side` is `'right'`
or `'left'`, require an `'&'` node, and return the chosen child (bare
strings as is, otherwise `recover_formula`). -/
def conjunction_elim (premise1 : Input) (side : Str) : Except Err Str :=
  match get_trees1 premise1 with
  | .error e => .error e
  | .ok conjunction_tree =>
      if side ≠ sRight ∧ side ≠ sLeft then .error .valueErr
      else
        match conjunction_tree with
        | .l3 op l r =>
            if op = .str opAnd then
              if side = sRight then .ok (str_or_formula r)
              else .ok (str_or_formula l)
            else .error .ruleErr
        | _ => .error .ruleErr

/-- `rule.py` lines 1028-1097, `is_conjunction_elim`: parse the candidate
conclusion, try `conjunction_elim` with `'right'` and then `'left'` (an
exception from the first call skips the second, leaving both actual
conclusions empty); return whether either actual conclusion equals the
candidate's canonical text. -/
def is_conjunction_elim (premise1 conclusion : Input) : Except Err Bool :=
  match get_trees1 conclusion with
  | .error e => .error e
  | .ok conclusion_tree =>
      let c := recover_formula conclusion_tree
      match conjunction_elim premise1 sRight with
      | .error .syntaxErr => .error .syntaxErr
      | .error _ => .ok (decide (([] : Str) = c ∨ ([] : Str) = c))
      | .ok actual1 =>
          match conjunction_elim premise1 sLeft with
          | .error .syntaxErr => .error .syntaxErr
          | .error _ => .ok (decide (actual1 = c ∨ ([] : Str) = c))
          | .ok actual2 => .ok (decide (actual1 = c ∨ actual2 = c))

/-- `rule.py` lines 1099-1156, `conjunction_intro`: parse both premises
and return `recover_formula(['&', premise1_tree, premise2_tree])` — the
first premise always ends up on the left. -/
def conjunction_intro (premise1 premise2 : Input) : Except Err Str :=
  match get_trees2 premise1 premise2 with
  | .error e => .error e
  | .ok (premise1_tree, premise2_tree) =>
      .ok (recover_formula (.l3 (.str opAnd) premise1_tree premise2_tree))

/-- `rule.py` lines 1158-1229, `is_conjunction_intro`: parse the candidate
conclusion, build both `conjunction_intro(p1, p2)` and
`conjunction_intro(p2, p1)` (only syntax errors can escape), and return
whether the candidate's canonical text equals either. -/
def is_conjunction_intro (premise1 premise2 conclusion : Input) : Except Err Bool :=
  match get_trees1 conclusion with
  | .error e => .error e
  | .ok conclusion_tree =>
      match conjunction_intro premise1 premise2 with
      | .error e => .error e
      | .ok actual1 =>
          match conjunction_intro premise2 premise1 with
          | .error e => .error e
          | .ok actual2 =>
              let c := recover_formula conclusion_tree
              .ok (decide (actual1 = c ∨ actual2 = c))

/-- Left inverse of `Fm.sub`, used to prove that distinct formulas have
distinct subtree representations. -/
def unsub : Py → Fm
  | .str s => .atom s
  | .l1 a => unsub a
  | .l2 _ b => .not (unsub b)
  | .l3 op b c =>
      if op = .str opAnd then .and (unsub b) (unsub c)
      else if op = .str opOr then .or (unsub b) (unsub c)
      else if op = .str opImp then .implies (unsub b) (unsub c)
      else .iff (unsub b) (unsub c)

/-- The claim's description of `modus_ponens` after role assignment,
written at the formula level: the conditional's top operator must be
IMPLIES and its left child structurally equal to the other premise (or
textually equal to the other premise's rendered text when the antecedent
is an atom); the result is the canonical rendering of the right child. -/
def mp_claim_result (c o : Fm) : Except Err Str :=
  match c with
  | .implies a b =>
      if a = o ∨ (a.isAtom = true ∧ render a = render o) then .ok (render b)
      else .error .ruleErr
  | _ => .error .ruleErr

/-- The spec's description (section 4.3) of `modus_tollens` after role
assignment: the primary premise must be an IMPLIES node and the other
premise the negation of its right child; the result is the canonical
rendering of NOT(left child). -/
def mt_claim_result (c o : Fm) : Except Err Str :=
  match c with
  | .implies a b =>
      if o = .not b then .ok (render (.not a)) else .error .ruleErr
  | _ => .error .ruleErr

/-- The claim's description of `disjunction_elim` after role assignment:
the primary premise must be an OR node, the other premise a NOT node
whose child equals one of the disjuncts (left checked first); the result
is the canonical rendering of the non-negated disjunct. -/
def de_claim_result (d n : Fm) : Except Err Str :=
  match d with
  | .or l r =>
      if n = .not l then .ok (render r)
      else if n = .not r then .ok (render l)
      else .error .ruleErr
  | _ => .error .ruleErr

/-! ### Basic facts about the tree representation and the printer -/

theorem unsub_sub (f : Fm) : unsub f.sub = f := by
  induction f with
  | atom s => rfl
  | not p ih => simp [Fm.sub, unsub, ih]
  | and p q ihp ihq => simp [Fm.sub, unsub, ihp, ihq, opAnd, opOr, opImp, opIff]
  | or p q ihp ihq => simp [Fm.sub, unsub, ihp, ihq, opAnd, opOr, opImp, opIff]
  | implies p q ihp ihq => simp [Fm.sub, unsub, ihp, ihq, opAnd, opOr, opImp, opIff]
  | iff p q ihp ihq => simp [Fm.sub, unsub, ihp, ihq, opAnd, opOr, opImp, opIff]

theorem Fm.sub_inj {a b : Fm} (h : a.sub = b.sub) : a = b := by
  have := congrArg unsub h
  rwa [unsub_sub, unsub_sub] at this

theorem Fm.sub_inj_iff {a b : Fm} : a.sub = b.sub ↔ a = b :=
  ⟨Fm.sub_inj, fun h => by rw [h]⟩

theorem Fm.sub_ne_l1 (a : Fm) (x : Py) : a.sub ≠ .l1 x := by
  cases a <;> simp [Fm.sub]

theorem Fm.full_eq_sub {a : Fm} (h : a.isAtom = false) : a.full = a.sub := by
  cases a <;> simp_all [Fm.isAtom, Fm.full]

theorem render_atom (s : Str) : render (.atom s) = s := rfl

theorem str_or_formula_sub (f : Fm) : str_or_formula f.sub = render f := by
  cases f <;> rfl

theorem renderInternal_full (f : Fm) : renderInternal f.full = renderInternal f.sub := by
  cases f <;> rfl

theorem render_ne_nil {f : Fm} (h : f.validB = true) : render f ≠ [] := by
  cases f with
  | atom s =>
      intro hn
      rw [render_atom] at hn
      subst hn
      simp [Fm.validB, validAtom] at h
  | not p => simp [render, Fm.full, Fm.sub, recover_formula, renderInternal, opNot]
  | and p q => simp [render, Fm.full, Fm.sub, recover_formula, renderInternal, opAnd]
  | or p q => simp [render, Fm.full, Fm.sub, recover_formula, renderInternal, opOr]
  | implies p q => simp [render, Fm.full, Fm.sub, recover_formula, renderInternal, opImp]
  | iff p q => simp [render, Fm.full, Fm.sub, recover_formula, renderInternal, opIff]

/-- A full parse tree is a 2-element list `['~', x.sub]` exactly when the
formula is the negation of `x`. -/
theorem full_eq_not_iff (n x : Fm) :
    n.full = .l2 (.str opNot) x.sub ↔ n = .not x := by
  cases n <;> simp [Fm.full, Fm.sub, Fm.sub_inj_iff]

/-- The condition `rule.py` line 95 actually tests, related to the
condition the claim states. -/
theorem mp_antecedent_cond_iff (a o : Fm) :
    (a.sub = .str (render o) ∨ a.sub = o.full) ↔
      (a = o ∨ (a.isAtom = true ∧ render a = render o)) := by
  constructor
  · rintro (h | h)
    · cases a with
      | atom s =>
          right
          simp only [Fm.sub, Py.str.injEq] at h
          exact ⟨rfl, by rw [render_atom, h]⟩
      | not p => simp [Fm.sub] at h
      | and p q => simp [Fm.sub] at h
      | or p q => simp [Fm.sub] at h
      | implies p q => simp [Fm.sub] at h
      | iff p q => simp [Fm.sub] at h
    · cases ho : o.isAtom with
      | false => exact Or.inl (Fm.sub_inj (h.trans (Fm.full_eq_sub ho)))
      | true =>
          exfalso
          cases o with
          | atom s => exact Fm.sub_ne_l1 a _ h
          | not p => simp [Fm.isAtom] at ho
          | and p q => simp [Fm.isAtom] at ho
          | or p q => simp [Fm.isAtom] at ho
          | implies p q => simp [Fm.isAtom] at ho
          | iff p q => simp [Fm.isAtom] at ho
  · rintro (rfl | ⟨ha, hr⟩)
    · cases ho : a.isAtom with
      | false => exact Or.inr (Fm.full_eq_sub ho).symm
      | true =>
          cases a with
          | atom s => exact Or.inl rfl
          | not p => simp [Fm.isAtom] at ho
          | and p q => simp [Fm.isAtom] at ho
          | or p q => simp [Fm.isAtom] at ho
          | implies p q => simp [Fm.isAtom] at ho
          | iff p q => simp [Fm.isAtom] at ho
    · cases a with
      | atom s => exact Or.inl (congrArg Py.str hr)
      | not p => exact absurd ha (by simp [Fm.isAtom])
      | and p q => exact absurd ha (by simp [Fm.isAtom])
      | or p q => exact absurd ha (by simp [Fm.isAtom])
      | implies p q => exact absurd ha (by simp [Fm.isAtom])
      | iff p q => exact absurd ha (by simp [Fm.isAtom])

/-! ### The role-assignment bodies coincide with their claim-level
descriptions -/

theorem mp_roles_claim (c o : Fm) :
    mp_from_roles c.full o.full (render o) = mp_claim_result c o := by
  cases c with
  | atom s => rfl
  | not p => rfl
  | and p q => rfl
  | or p q => rfl
  | iff p q => rfl
  | implies a b =>
      have hred : mp_from_roles (Fm.implies a b).full o.full (render o)
          = if a.sub = .str (render o) ∨ a.sub = o.full
            then .ok (str_or_formula b.sub) else .error .ruleErr := by
        show mp_from_roles (.l3 (.str opImp) a.sub b.sub) o.full (render o) = _
        simp [mp_from_roles]
      rw [hred, str_or_formula_sub, if_congr (mp_antecedent_cond_iff a o) rfl rfl]
      rfl

theorem mt_roles_claim (c o : Fm) :
    mt_from_roles c.full o.full = mt_claim_result c o := by
  cases c with
  | atom s => rfl
  | not p => rfl
  | and p q => rfl
  | or p q => rfl
  | iff p q => rfl
  | implies a b =>
      cases o with
      | atom s => simp [mt_from_roles, mt_claim_result, Fm.full, Fm.sub]
      | and p q => simp [mt_from_roles, mt_claim_result, Fm.full, Fm.sub]
      | or p q => simp [mt_from_roles, mt_claim_result, Fm.full, Fm.sub]
      | implies p q => simp [mt_from_roles, mt_claim_result, Fm.full, Fm.sub]
      | iff p q => simp [mt_from_roles, mt_claim_result, Fm.full, Fm.sub]
      | not u =>
          by_cases hu : u = b
          · subst hu
            simp [mt_from_roles, mt_claim_result, Fm.full, Fm.sub]
            rfl
          · have hsub : u.sub ≠ b.sub := fun hc => hu (Fm.sub_inj hc)
            simp [mt_from_roles, mt_claim_result, Fm.full, Fm.sub, hu, hsub]

theorem de_roles_claim (d n : Fm) :
    de_from_roles d.full n.full = de_claim_result d n := by
  cases d with
  | atom s => rfl
  | not p => rfl
  | and p q => rfl
  | implies p q => rfl
  | iff p q => rfl
  | or l r =>
      have hred : de_from_roles (Fm.or l r).full n.full
          = (if n.full = .l2 (.str opNot) l.sub then .ok (str_or_formula r.sub)
             else if n.full = .l2 (.str opNot) r.sub then .ok (str_or_formula l.sub)
             else .error .ruleErr) := by
        show de_from_roles (.l3 (.str opOr) l.sub r.sub) n.full = _
        simp [de_from_roles]
      rw [hred, str_or_formula_sub, str_or_formula_sub,
        if_congr (full_eq_not_iff n l) rfl rfl,
        if_congr (full_eq_not_iff n r) rfl rfl]
      rfl

/-! ### Syntax errors propagate from every entry point -/

theorem mp_synerr (i1 i2 : Input) (h : i1 = .malformed ∨ i2 = .malformed) :
    modus_ponens i1 i2 = .error .syntaxErr := by
  cases i1 <;> cases i2 <;> simp_all [modus_ponens, get_trees2]

theorem mt_synerr (i1 i2 : Input) (h : i1 = .malformed ∨ i2 = .malformed) :
    modus_tollens i1 i2 = .error .syntaxErr := by
  cases i1 <;> cases i2 <;> simp_all [modus_tollens, get_trees2]

theorem chain_synerr (i1 i2 : Input) (h : i1 = .malformed ∨ i2 = .malformed) :
    chain_implication i1 i2 = .error .syntaxErr := by
  cases i1 <;> cases i2 <;> simp_all [chain_implication, get_trees2]

theorem de_synerr (i1 i2 : Input) (h : i1 = .malformed ∨ i2 = .malformed) :
    disjunction_elim i1 i2 = .error .syntaxErr := by
  cases i1 <;> cases i2 <;> simp_all [disjunction_elim, get_trees2]

theorem di_synerr (i1 i2 : Input) (side : Str)
    (h : i1 = .malformed ∨ i2 = .malformed) :
    disjunction_intro i1 i2 side = .error .syntaxErr := by
  cases i1 <;> cases i2 <;> simp_all [disjunction_intro, get_trees2]

theorem ci_synerr (i1 i2 : Input) (h : i1 = .malformed ∨ i2 = .malformed) :
    conjunction_intro i1 i2 = .error .syntaxErr := by
  cases i1 <;> cases i2 <;> simp_all [conjunction_intro, get_trees2]

theorem ce_synerr (side : Str) :
    conjunction_elim .malformed side = .error .syntaxErr := rfl

theorem dilemma_synerr (i1 i2 i3 : Input)
    (h : i1 = .malformed ∨ i2 = .malformed ∨ i3 = .malformed) :
    dilemma i1 i2 i3 = .error .syntaxErr := by
  cases i1 <;> cases i2 <;> cases i3 <;> simp_all [dilemma, get_trees3]

theorem is_mp_synerr (i1 i2 c : Input)
    (h : i1 = .malformed ∨ i2 = .malformed ∨ c = .malformed) :
    is_modus_ponens i1 i2 c = .error .syntaxErr := by
  cases c with
  | malformed => rfl
  | wf f =>
      have hp : i1 = .malformed ∨ i2 = .malformed := by
        rcases h with h | h | h
        · exact Or.inl h
        · exact Or.inr h
        · exact absurd h (by simp)
      simp [is_modus_ponens, get_trees1, mp_synerr i1 i2 hp]

theorem is_mt_synerr (i1 i2 c : Input)
    (h : i1 = .malformed ∨ i2 = .malformed ∨ c = .malformed) :
    is_modus_tollens i1 i2 c = .error .syntaxErr := by
  cases c with
  | malformed => rfl
  | wf f =>
      have hp : i1 = .malformed ∨ i2 = .malformed := by
        rcases h with h | h | h
        · exact Or.inl h
        · exact Or.inr h
        · exact absurd h (by simp)
      simp [is_modus_tollens, get_trees1, mt_synerr i1 i2 hp]

theorem is_chain_synerr (i1 i2 c : Input)
    (h : i1 = .malformed ∨ i2 = .malformed ∨ c = .malformed) :
    is_chain_implication i1 i2 c = .error .syntaxErr := by
  cases c with
  | malformed => rfl
  | wf f =>
      have hp : i1 = .malformed ∨ i2 = .malformed := by
        rcases h with h | h | h
        · exact Or.inl h
        · exact Or.inr h
        · exact absurd h (by simp)
      simp [is_chain_implication, get_trees1, chain_synerr i1 i2 hp]

theorem is_de_synerr (i1 i2 c : Input)
    (h : i1 = .malformed ∨ i2 = .malformed ∨ c = .malformed) :
    is_disjunction_elim i1 i2 c = .error .syntaxErr := by
  cases c with
  | malformed => rfl
  | wf f =>
      have hp : i1 = .malformed ∨ i2 = .malformed := by
        rcases h with h | h | h
        · exact Or.inl h
        · exact Or.inr h
        · exact absurd h (by simp)
      simp [is_disjunction_elim, get_trees1, de_synerr i1 i2 hp]

theorem is_dilemma_synerr (i1 i2 i3 c : Input)
    (h : i1 = .malformed ∨ i2 = .malformed ∨ i3 = .malformed ∨ c = .malformed) :
    is_dilemma i1 i2 i3 c = .error .syntaxErr := by
  cases c with
  | malformed => rfl
  | wf f =>
      have hp : i1 = .malformed ∨ i2 = .malformed ∨ i3 = .malformed := by
        rcases h with h | h | h | h
        · exact Or.inl h
        · exact Or.inr (Or.inl h)
        · exact Or.inr (Or.inr h)
        · exact absurd h (by simp)
      simp [is_dilemma, get_trees1, dilemma_synerr i1 i2 i3 hp]

theorem is_di_synerr (i1 c : Input) (h : i1 = .malformed ∨ c = .malformed) :
    is_disjunction_intro i1 c = .error .syntaxErr := by
  cases i1 <;> cases c <;> simp_all [is_disjunction_intro, get_trees2]

theorem is_ce_synerr (i1 c : Input) (h : i1 = .malformed ∨ c = .malformed) :
    is_conjunction_elim i1 c = .error .syntaxErr := by
  cases c with
  | malformed => rfl
  | wf f =>
      have hp : i1 = .malformed := by
        rcases h with h | h
        · exact h
        · exact absurd h (by simp)
      subst hp
      rfl

theorem is_ci_synerr (i1 i2 c : Input)
    (h : i1 = .malformed ∨ i2 = .malformed ∨ c = .malformed) :
    is_conjunction_intro i1 i2 c = .error .syntaxErr := by
  cases c with
  | malformed => rfl
  | wf f =>
      have hp : i1 = .malformed ∨ i2 = .malformed := by
        rcases h with h | h | h
        · exact Or.inl h
        · exact Or.inr h
        · exact absurd h (by simp)
      rcases hp with hp | hp
      · subst hp
        cases i2 <;> rfl
      · subst hp
        cases i1 <;> rfl

/-! ### The claims -/

/-- C3: every `apply_*` and `is_*` entry point raises a syntax error to the
caller whenever any input formula is malformed; in particular no `is_*`
operation converts a syntax error into a `false` result. -/
theorem syntax_error_propagates :
    ∀ (i1 i2 i3 c : Input) (side : Str),
      (i1 = .malformed ∨ i2 = .malformed →
        modus_ponens i1 i2 = .error .syntaxErr ∧
        modus_tollens i1 i2 = .error .syntaxErr ∧
        chain_implication i1 i2 = .error .syntaxErr ∧
        disjunction_elim i1 i2 = .error .syntaxErr ∧
        disjunction_intro i1 i2 side = .error .syntaxErr ∧
        conjunction_intro i1 i2 = .error .syntaxErr) ∧
      (i1 = .malformed → conjunction_elim i1 side = .error .syntaxErr) ∧
      (i1 = .malformed ∨ i2 = .malformed ∨ i3 = .malformed →
        dilemma i1 i2 i3 = .error .syntaxErr) ∧
      (i1 = .malformed ∨ i2 = .malformed ∨ c = .malformed →
        is_modus_ponens i1 i2 c = .error .syntaxErr ∧
        is_modus_tollens i1 i2 c = .error .syntaxErr ∧
        is_chain_implication i1 i2 c = .error .syntaxErr ∧
        is_disjunction_elim i1 i2 c = .error .syntaxErr ∧
        is_conjunction_intro i1 i2 c = .error .syntaxErr) ∧
      (i1 = .malformed ∨ i2 = .malformed ∨ i3 = .malformed ∨ c = .malformed →
        is_dilemma i1 i2 i3 c = .error .syntaxErr) ∧
      (i1 = .malformed ∨ c = .malformed →
        is_disjunction_intro i1 c = .error .syntaxErr ∧
        is_conjunction_elim i1 c = .error .syntaxErr) := by
  intro i1 i2 i3 c side
  refine ⟨?_, ?_, ?_, ?_, ?_, ?_⟩
  · intro h
    exact ⟨mp_synerr _ _ h, mt_synerr _ _ h, chain_synerr _ _ h, de_synerr _ _ h,
      di_synerr _ _ side h, ci_synerr _ _ h⟩
  · intro h
    subst h
    exact ce_synerr side
  · exact dilemma_synerr _ _ _
  · intro h
    exact ⟨is_mp_synerr _ _ _ h, is_mt_synerr _ _ _ h, is_chain_synerr _ _ _ h,
      is_de_synerr _ _ _ h, is_ci_synerr _ _ _ h⟩
  · exact is_dilemma_synerr _ _ _ _
  · intro h
    exact ⟨is_di_synerr _ _ h, is_ce_synerr _ _ h⟩

/-- Witness for C3 at concrete malformed inputs. -/
theorem syntax_error_propagates_witness :
    modus_ponens .malformed (.wf (.atom ['a'])) = .error .syntaxErr ∧
    is_conjunction_elim (.wf (.atom ['a'])) .malformed = .error .syntaxErr :=
  ⟨((syntax_error_propagates .malformed (.wf (.atom ['a'])) (.wf (.atom ['a']))
      (.wf (.atom ['a'])) []).1 (Or.inl rfl)).1,
   ((syntax_error_propagates (.wf (.atom ['a'])) (.wf (.atom ['a'])) (.wf (.atom ['a']))
      .malformed []).2.2.2.2.2 (Or.inr rfl)).2⟩

/-- C1: on premises that parse, `modus_ponens` takes the premise with the
strictly longer rendered text as the conditional and returns the canonical
rendering of the IMPLIES node's right child when the conditional's left
child is structurally equal to the other premise (or textually equal to
its rendered text when the antecedent is an atom); in every other case it
raises the rule-inapplicable error. -/
theorem modus_ponens_claim (p1 p2 : Fm)
    (_hlen : (render p1).length ≠ (render p2).length) :
    modus_ponens (.wf p1) (.wf p2) =
      if (render p1).length > (render p2).length then mp_claim_result p1 p2
      else mp_claim_result p2 p1 := by
  show (if (render p1).length > (render p2).length
        then mp_from_roles p1.full p2.full (render p2)
        else mp_from_roles p2.full p1.full (render p1)) = _
  by_cases hgt : (render p1).length > (render p2).length
  · rw [if_pos hgt, if_pos hgt, mp_roles_claim]
  · rw [if_neg hgt, if_neg hgt, mp_roles_claim]

/-- Witness for C1: `modus_ponens("a->b", "a")` concludes `b`. -/
theorem modus_ponens_claim_witness :
    (render (Fm.implies (.atom ['a']) (.atom ['b']))).length ≠
      (render (Fm.atom ['a'])).length ∧
    modus_ponens (.wf (.implies (.atom ['a']) (.atom ['b']))) (.wf (.atom ['a'])) =
      if (render (Fm.implies (.atom ['a']) (.atom ['b']))).length >
          (render (Fm.atom ['a'])).length
      then mp_claim_result (.implies (.atom ['a']) (.atom ['b'])) (.atom ['a'])
      else mp_claim_result (.atom ['a']) (.implies (.atom ['a']) (.atom ['b'])) :=
  ⟨by decide, modus_ponens_claim _ _ (by decide)⟩

/-- C8: on premises that parse, `disjunction_elim` takes the premise with
the strictly longer rendered text as the disjunction, which must be an OR
node; the other premise must be the negation of one of the OR's children
(left checked first); the result is the rendering of the non-negated
disjunct, and the rule-inapplicable error is raised if neither side
matches. -/
theorem disjunction_elim_claim (p1 p2 : Fm)
    (_hlen : (render p1).length ≠ (render p2).length) :
    disjunction_elim (.wf p1) (.wf p2) =
      if (render p1).length > (render p2).length then de_claim_result p1 p2
      else de_claim_result p2 p1 := by
  show (if (render p1).length > (render p2).length
        then de_from_roles p1.full p2.full
        else de_from_roles p2.full p1.full) = _
  by_cases hgt : (render p1).length > (render p2).length
  · rw [if_pos hgt, if_pos hgt, de_roles_claim]
  · rw [if_neg hgt, if_neg hgt, de_roles_claim]

/-- Witness for C8: `disjunction_elim("a|b", "~a")` concludes `b`. -/
theorem disjunction_elim_claim_witness :
    (render (Fm.or (.atom ['a']) (.atom ['b']))).length ≠
      (render (Fm.not (.atom ['a']))).length ∧
    disjunction_elim (.wf (.or (.atom ['a']) (.atom ['b'])))
        (.wf (.not (.atom ['a']))) =
      if (render (Fm.or (.atom ['a']) (.atom ['b']))).length >
          (render (Fm.not (.atom ['a']))).length
      then de_claim_result (.or (.atom ['a']) (.atom ['b'])) (.not (.atom ['a']))
      else de_claim_result (.not (.atom ['a'])) (.or (.atom ['a']) (.atom ['b'])) :=
  ⟨by decide, disjunction_elim_claim _ _ (by decide)⟩

/-- C10: when the two premises' rendered texts have equal length, the
length heuristic assigns the primary role (the conditional for modus
ponens and modus tollens, the disjunction for disjunction elimination) to
the second premise, never to the first. -/
theorem length_tie_second_premise_primary (p1 p2 : Fm)
    (h : (render p1).length = (render p2).length) :
    modus_ponens (.wf p1) (.wf p2) = mp_claim_result p2 p1 ∧
    modus_tollens (.wf p1) (.wf p2) = mt_claim_result p2 p1 ∧
    disjunction_elim (.wf p1) (.wf p2) = de_claim_result p2 p1 := by
  have hngt : ¬((render p1).length > (render p2).length) := by omega
  refine ⟨?_, ?_, ?_⟩
  · show (if (render p1).length > (render p2).length
          then mp_from_roles p1.full p2.full (render p2)
          else mp_from_roles p2.full p1.full (render p1)) = _
    rw [if_neg hngt, mp_roles_claim]
  · show (if (render p1).length > (render p2).length
          then mt_from_roles p1.full p2.full
          else mt_from_roles p2.full p1.full) = _
    rw [if_neg hngt, mt_roles_claim]
  · show (if (render p1).length > (render p2).length
          then de_from_roles p1.full p2.full
          else de_from_roles p2.full p1.full) = _
    rw [if_neg hngt, de_roles_claim]

/-- Witness for C10: two equal-length premises, the second being the
conditional. -/
theorem length_tie_second_premise_primary_witness :
    (render (Fm.atom ['a'])).length = (render (Fm.atom ['b'])).length ∧
    modus_ponens (.wf (.atom ['a'])) (.wf (.atom ['b'])) =
      mp_claim_result (.atom ['b']) (.atom ['a']) :=
  ⟨by decide, (length_tie_second_premise_primary _ _ (by decide)).1⟩

/-- C2: when syntactically valid premises do not match a rule's structural
pattern (the apply operation raises the rule-inapplicable error), the
corresponding `is_*` check catches the error and returns `false` rather
than propagating it. -/
theorem rule_error_yields_false (p1 p2 p3 c : Fm) (hc : c.validB = true) :
    (modus_ponens (.wf p1) (.wf p2) = .error .ruleErr →
      is_modus_ponens (.wf p1) (.wf p2) (.wf c) = .ok false) ∧
    (modus_tollens (.wf p1) (.wf p2) = .error .ruleErr →
      is_modus_tollens (.wf p1) (.wf p2) (.wf c) = .ok false) ∧
    (chain_implication (.wf p1) (.wf p2) = .error .ruleErr →
      is_chain_implication (.wf p1) (.wf p2) (.wf c) = .ok false) ∧
    (dilemma (.wf p1) (.wf p2) (.wf p3) = .error .ruleErr →
      is_dilemma (.wf p1) (.wf p2) (.wf p3) (.wf c) = .ok false) ∧
    (disjunction_elim (.wf p1) (.wf p2) = .error .ruleErr →
      is_disjunction_elim (.wf p1) (.wf p2) (.wf c) = .ok false) ∧
    (conjunction_elim (.wf p1) sRight = .error .ruleErr →
      is_conjunction_elim (.wf p1) (.wf c) = .ok false) := by
  have hne : render c ≠ [] := render_ne_nil hc
  have hd1 : (decide (([] : Str) = recover_formula c.full)) = false :=
    decide_eq_false fun hx => hne hx.symm
  have hd2 : (decide ((([] : Str) = recover_formula c.full) ∨
      (([] : Str) = recover_formula c.full))) = false :=
    decide_eq_false (by rintro (hx | hx) <;> exact hne hx.symm)
  refine ⟨?_, ?_, ?_, ?_, ?_, ?_⟩ <;> intro happ
  · simp [is_modus_ponens, get_trees1, happ, hd1]
    exact hne
  · simp [is_modus_tollens, get_trees1, happ, hd1]
    exact hne
  · simp [is_chain_implication, get_trees1, happ, hd1]
    exact hne
  · simp [is_dilemma, get_trees1, happ, hd1]
    exact hne
  · simp [is_disjunction_elim, get_trees1, happ, hd1]
    exact hne
  · simp [is_conjunction_elim, get_trees1, happ, hd2]
    exact hne

/-- Witness for C2: two atomic premises match no rule, and the checks
return `false`. -/
theorem rule_error_yields_false_witness :
    is_modus_ponens (.wf (.atom ['a'])) (.wf (.atom ['b'])) (.wf (.atom ['c'])) =
      .ok false ∧
    is_conjunction_elim (.wf (.atom ['a'])) (.wf (.atom ['c'])) = .ok false :=
  ⟨(rule_error_yields_false (.atom ['a']) (.atom ['b']) (.atom ['b']) (.atom ['c'])
      (by decide)).1 rfl,
   (rule_error_yields_false (.atom ['a']) (.atom ['b']) (.atom ['b']) (.atom ['c'])
      (by decide)).2.2.2.2.2 rfl⟩

/-- C4 counterexample: with a malformed formula input and an invalid
`side`, both operations raise the syntax error from parsing, not the
argument error — so the argument error is not checked before parsing. -/
theorem side_check_after_parsing_cex :
    disjunction_intro .malformed (.wf (.atom ['a'])) ['m'] = .error .syntaxErr ∧
    conjunction_elim .malformed ['m'] = .error .syntaxErr ∧
    Err.syntaxErr ≠ Err.valueErr :=
  ⟨rfl, rfl, by decide⟩

/-- C4 amended: for `disjunction_intro` and `conjunction_elim`, any value
of `side` other than `'right'` or `'left'` raises an argument error that
is propagated to the caller, before any pattern matching — but only after
the formula inputs have been parsed; a malformed formula input raises the
parser's syntax error instead. -/
theorem side_check_argument_error (f g : Fm) (side : Str)
    (h1 : side ≠ sRight) (h2 : side ≠ sLeft) :
    disjunction_intro (.wf f) (.wf g) side = .error .valueErr ∧
    conjunction_elim (.wf f) side = .error .valueErr := by
  constructor
  · simp [disjunction_intro, get_trees2, h1, h2]
  · simp [conjunction_elim, get_trees1, h1, h2]

/-- Witness for C4's amended claim at `side = 'm'`. -/
theorem side_check_argument_error_witness :
    (['m'] : Str) ≠ sRight ∧ (['m'] : Str) ≠ sLeft ∧
    disjunction_intro (.wf (.atom ['a'])) (.wf (.atom ['b'])) ['m'] =
      .error .valueErr :=
  ⟨by decide, by decide,
   (side_check_argument_error (.atom ['a']) (.atom ['b']) ['m']
      (by decide) (by decide)).1⟩

/-- C5 counterexample: on `a->b` and `b->a` both chaining conditions hold,
and `chain_implication` concludes `a->a` one way but `b->b` the other —
the apply operation is not order-independent. -/
theorem chain_implication_not_symmetric :
    chain_implication (.wf (.implies (.atom ['a']) (.atom ['b'])))
        (.wf (.implies (.atom ['b']) (.atom ['a']))) = .ok ['a', '-', '>', 'a'] ∧
    chain_implication (.wf (.implies (.atom ['b']) (.atom ['a'])))
        (.wf (.implies (.atom ['a']) (.atom ['b']))) = .ok ['b', '-', '>', 'b'] ∧
    (['a', '-', '>', 'a'] : Str) ≠ ['b', '-', '>', 'b'] :=
  ⟨rfl, rfl, by decide⟩

/-- C5 amended: `chain_implication` is order-independent on premises
`a->b` and `c->d` provided the two chaining conditions `b = c` and
`d = a` do not hold simultaneously with `a ≠ c` (when they do, the two
orders conclude `a->a` and `c->c` respectively). -/
theorem chain_implication_comm (a b c d : Fm)
    (h : b = c → d = a → a = c) :
    chain_implication (.wf (.implies a b)) (.wf (.implies c d)) =
      chain_implication (.wf (.implies c d)) (.wf (.implies a b)) := by
  by_cases hbc : b.sub = c.sub
  · by_cases hda : d.sub = a.sub
    · have hac : a.sub = c.sub := by
        rw [h (Fm.sub_inj hbc) (Fm.sub_inj hda)]
      have hdb : d.sub = b.sub := by rw [hda, hac, ← hbc]
      simp [chain_implication, get_trees2, Fm.full, Fm.sub, hbc, hda, hac, hdb]
    · simp [chain_implication, get_trees2, Fm.full, Fm.sub, hbc, hda]
  · by_cases hda : d.sub = a.sub
    · simp [chain_implication, get_trees2, Fm.full, Fm.sub, hbc, hda]
    · simp [chain_implication, get_trees2, Fm.full, Fm.sub, hbc, hda]

/-- Witness for C5's amended claim on `a->b` and `b->c`. -/
theorem chain_implication_comm_witness :
    chain_implication (.wf (.implies (.atom ['a']) (.atom ['b'])))
        (.wf (.implies (.atom ['b']) (.atom ['c']))) =
      chain_implication (.wf (.implies (.atom ['b']) (.atom ['c'])))
        (.wf (.implies (.atom ['a']) (.atom ['b']))) :=
  chain_implication_comm _ _ _ _ (fun _ h2 => absurd h2 (by decide))

/-- C6: evaluating `dilemma` at the failing input: with two OR premises
`a|b` and `c|a` and the single conditional premise `a->d`, the call
succeeds and returns `d|d` — the same premise fills both conditional
roles across the two disjunction iterations — instead of raising the
rule-inapplicable error required when the disjunction is not unique. -/
theorem dilemma_two_disjunctions_accepted :
    dilemma (.wf (.or (.atom ['a']) (.atom ['b'])))
      (.wf (.or (.atom ['c']) (.atom ['a'])))
      (.wf (.implies (.atom ['a']) (.atom ['d']))) = .ok ['d', '|', 'd'] := rfl

/-- C7 counterexample: premises of the required form whose disjunction has
equal children — `a|a`, `a->p`, `a->q` — yield no conclusion at all:
orderings raise the rule-inapplicable error, because the `elif` in the
scan can never assign the second conditional when both disjuncts are
equal. -/
theorem dilemma_equal_disjuncts_no_conclusion :
    dilemma (.wf (.or (.atom ['a']) (.atom ['a'])))
      (.wf (.implies (.atom ['a']) (.atom ['p'])))
      (.wf (.implies (.atom ['a']) (.atom ['q']))) = .error .ruleErr ∧
    dilemma (.wf (.implies (.atom ['a']) (.atom ['p'])))
      (.wf (.or (.atom ['a']) (.atom ['a'])))
      (.wf (.implies (.atom ['a']) (.atom ['q']))) = .error .ruleErr :=
  ⟨rfl, rfl⟩

/-- C7 amended: for premises consisting of one OR node `L|R` with `L ≠ R`
and two IMPLIES nodes `L->X` and `R->Y`, `dilemma` yields the canonical
rendering of `X|Y` under every one of the 6 permutations of its three
arguments; when `L = R` every ordering raises the rule-inapplicable
error instead. -/
theorem dilemma_permutation_invariant (L R X Y : Fm) (hLR : L ≠ R) :
    (dilemma (.wf (.or L R)) (.wf (.implies L X)) (.wf (.implies R Y)) =
        .ok (render (.or X Y))) ∧
    (dilemma (.wf (.or L R)) (.wf (.implies R Y)) (.wf (.implies L X)) =
        .ok (render (.or X Y))) ∧
    (dilemma (.wf (.implies L X)) (.wf (.or L R)) (.wf (.implies R Y)) =
        .ok (render (.or X Y))) ∧
    (dilemma (.wf (.implies R Y)) (.wf (.or L R)) (.wf (.implies L X)) =
        .ok (render (.or X Y))) ∧
    (dilemma (.wf (.implies L X)) (.wf (.implies R Y)) (.wf (.or L R)) =
        .ok (render (.or X Y))) ∧
    (dilemma (.wf (.implies R Y)) (.wf (.implies L X)) (.wf (.or L R)) =
        .ok (render (.or X Y))) := by
  have hrl : ¬(R.sub = L.sub) := fun hc => hLR (Fm.sub_inj hc).symm
  have hlr : ¬(L.sub = R.sub) := fun hc => hLR (Fm.sub_inj hc)
  refine ⟨?_, ?_, ?_, ?_, ?_, ?_⟩ <;>
    simp [dilemma, get_trees3, dilemma_outer, dilemma_scan, py2, Fm.full, Fm.sub,
      opOr, opImp, hrl, hlr, render, recover_formula]

/-- Witness for C7's amended claim on `a|b`, `a->p`, `b->q`. -/
theorem dilemma_permutation_invariant_witness :
    Fm.atom ['a'] ≠ Fm.atom ['b'] ∧
    dilemma (.wf (.or (.atom ['a']) (.atom ['b'])))
      (.wf (.implies (.atom ['a']) (.atom ['p'])))
      (.wf (.implies (.atom ['b']) (.atom ['q']))) =
      .ok (render (.or (.atom ['p']) (.atom ['q']))) :=
  ⟨by decide, (dilemma_permutation_invariant _ _ _ _ (by decide)).1⟩

theorem conj_render (p q : Fm) :
    recover_formula (.l3 (.str opAnd) p.full q.full) = render (.and p q) := by
  show renderInternal p.full ++ renderInternal (Py.str opAnd) ++ renderInternal q.full
      = renderInternal p.sub ++ renderInternal (Py.str opAnd) ++ renderInternal q.sub
  rw [renderInternal_full, renderInternal_full]

/-- C9: `is_conjunction_intro` accepts exactly the candidates whose
canonical text equals the canonical rendering of `AND(p1, p2)` or of
`AND(p2, p1)` — order-insensitive checking — while `conjunction_intro`
always places its first premise on the left, so the apply operation is
order-sensitive. -/
theorem conjunction_intro_check_symmetric (p1 p2 c : Fm) :
    is_conjunction_intro (.wf p1) (.wf p2) (.wf c) =
      .ok (decide (render c = render (.and p1 p2) ∨
                   render c = render (.and p2 p1))) ∧
    conjunction_intro (.wf p1) (.wf p2) = .ok (render (.and p1 p2)) ∧
    conjunction_intro (.wf (.atom ['a'])) (.wf (.atom ['b'])) ≠
      conjunction_intro (.wf (.atom ['b'])) (.wf (.atom ['a'])) := by
  refine ⟨?_, ?_, ?_⟩
  · show Except.ok (decide
        (recover_formula (.l3 (.str opAnd) p1.full p2.full) = recover_formula c.full ∨
         recover_formula (.l3 (.str opAnd) p2.full p1.full) = recover_formula c.full)) = _
    rw [conj_render, conj_render]
    congr 1
    exact decide_eq_decide.mpr (or_congr eq_comm eq_comm)
  · show Except.ok (recover_formula (.l3 (.str opAnd) p1.full p2.full)) = _
    rw [conj_render]
  · intro hcontra
    exact absurd (Except.ok.inj hcontra) (by decide)

end RuleEngine
